import Mathlib

/-!
Verification of the ptyprocess library (ptyprocess/ptyprocess.py).

This file gives a shallow embedding of the lifecycle and I/O logic of the
PtyProcess class.  External OS calls (os.waitpid, os.kill, the underlying
file-object read/write and close) are modelled as explicit inputs: each
operation takes the result the OS call would produce, and the embedding
reproduces exactly the control flow the Python code performs on that result.
Machine-level constants (errno codes, signal numbers, wait-status macros)
use their Linux/glibc values, since the source refers to them symbolically
through the os, errno and signal modules.

Byte strings are modelled as List Nat (each element one byte value); raised
Python exceptions are modelled with the Except monad, and because Python
mutations persist when an exception propagates, every operation returns the
final state alongside the Except result.
-/

set_option linter.unusedVariables false

namespace Ptyprocess

/-- The Linux errno code EIO (5), compared against err.args[0] in read and
readline. -/
def EIO : Nat := 5

/-- The Linux errno code ECHILD (10), compared against e.errno in isalive. -/
def ECHILD : Nat := 10

/-- The Linux value of os.WNOHANG, passed to os.waitpid for a non-blocking
wait. -/
def WNOHANG : Nat := 1

/-- The signal number of SIGHUP on Linux. -/
def SIGHUP : Nat := 1

/-- The signal number of SIGINT on Linux. -/
def SIGINT : Nat := 2

/-- The signal number of SIGKILL on Linux. -/
def SIGKILL : Nat := 9

/-- The signal number of SIGCONT on Linux. -/
def SIGCONT : Nat := 18

/-- The glibc wait-status macro WTERMSIG: the low seven bits of the raw
status. -/
def WTERMSIG (status : Nat) : Nat := status % 128

/-- The glibc wait-status macro WEXITSTATUS: bits 8 to 15 of the raw
status. -/
def WEXITSTATUS (status : Nat) : Nat := (status / 256) % 256

/-- The glibc wait-status macro WIFEXITED: the termination signal field is
zero. -/
def WIFEXITED (status : Nat) : Bool := status % 128 == 0

/-- The glibc wait-status macro WIFSIGNALED: the termination signal field is
between 1 and 126 (the macro casts field+1 to signed char and asks for a
positive arithmetic right shift, which excludes both 0 and 127). -/
def WIFSIGNALED (status : Nat) : Bool := 1 ≤ status % 128 && status % 128 ≤ 126

/-- The glibc wait-status macro WIFSTOPPED: the low byte of the raw status
is 0x7f. -/
def WIFSTOPPED (status : Nat) : Bool := status % 256 == 127

/-- The mutable attributes of a PtyProcess instance that the lifecycle and
I/O methods consult, as initialized by PtyProcess.__init__.  The field
fileobjClosed records whether self.fileobj has been closed; Python io
objects make a second close a no-op, so this flag is what makes the
underlying descriptor close happen at most once. -/
structure PtyState where
  pid : Nat
  fd : Int
  terminated : Bool
  closed : Bool
  fileobjClosed : Bool
  exitstatus : Option Nat
  signalstatus : Option Nat
  status : Option Nat
  flag_eof : Bool
deriving DecidableEq, Repr

/-- The state built by PtyProcess.__init__(pid, fd): all flags false, all
status fields None. -/
def initState (pid : Nat) (fd : Int) : PtyState :=
  { pid := pid, fd := fd, terminated := false, closed := false,
    fileobjClosed := false, exitstatus := none, signalstatus := none,
    status := none, flag_eof := false }

/-- The exceptions the embedded methods can raise. -/
inductive PtyErr where
  | eofError
  | osError (errno : Nat)
  | ptyProcessError
  | typeError
  | fileNotFoundError
  | indexError
deriving DecidableEq, Repr

/-- The result of one underlying read call on self.fileobj: either bytes
(possibly empty) or an OSError with the given errno. -/
inductive ReadRes where
  | bytes (s : List Nat)
  | err (errno : Nat)
deriving DecidableEq, Repr

/-- The result of one os.waitpid call: either a pid/status pair or an
OSError with the given errno. -/
inductive WaitRes where
  | pair (pid status : Nat)
  | err (errno : Nat)
deriving DecidableEq, Repr

/-- PtyProcess.read(size) (source lines 462-487).  The argument r is the
result of the single underlying self.fileobj.read1(size) call; the OS
guarantees the returned byte list has length at most size, and the method
performs no retry to fill the requested size. -/
def read (st : PtyState) (size : Nat) (r : ReadRes) :
    PtyState × Except PtyErr (List Nat) :=
  match r with
  | .err e =>
    if e = EIO then ({ st with flag_eof := true }, .error .eofError)
    else (st, .error (.osError e))
  | .bytes s =>
    if s = [] then ({ st with flag_eof := true }, .error .eofError)
    else (st, .ok s)

/-- PtyProcess.readline (source lines 489-508).  The argument r is the
result of the single underlying self.fileobj.readline() call. -/
def readline (st : PtyState) (r : ReadRes) :
    PtyState × Except PtyErr (List Nat) :=
  match r with
  | .err e =>
    if e = EIO then ({ st with flag_eof := true }, .error .eofError)
    else (st, .error (.osError e))
  | .bytes s =>
    if s = [] then ({ st with flag_eof := true }, .error .eofError)
    else (st, .ok s)

/-- PtyProcess.eof (source lines 590-593). -/
def eof (st : PtyState) : Bool := st.flag_eof

/-- The ASCII fragment of the Python str.lower method applied to a single
character code, as used by sendcontrol; on the code points the claims
evaluate (all ASCII) this agrees with Python exactly. -/
def lowerCode (a : Nat) : Nat := if 65 ≤ a ∧ a ≤ 90 then a + 32 else a

/-- The punctuation dictionary d of PtyProcess.sendcontrol (source lines
541-554), keyed by character code. -/
def controlCodes (c : Nat) : Option Nat :=
  if c = 64 then some 0          -- the at sign
  else if c = 96 then some 0     -- the backquote
  else if c = 91 then some 27    -- left square bracket
  else if c = 123 then some 27   -- left curly bracket
  else if c = 92 then some 28    -- backslash
  else if c = 124 then some 28   -- vertical bar
  else if c = 93 then some 29    -- right square bracket
  else if c = 125 then some 29   -- right curly bracket
  else if c = 94 then some 30    -- caret
  else if c = 126 then some 30   -- tilde
  else if c = 95 then some 31    -- underscore
  else if c = 63 then some 127   -- question mark
  else none

/-- PtyProcess.sendcontrol(char) (source lines 526-559) on the code point of
a single-character argument.  The first component models the return value of
self._writeb (the number of bytes written); the second models the byte
string written and returned. -/
def sendcontrol (c0 : Nat) : Nat × List Nat :=
  let c := lowerCode c0
  if 97 ≤ c ∧ c ≤ 122 then (1, [c - 97 + 1])
  else
    match controlCodes c with
    | none => (0, [])
    | some v => (1, [v])

/-- The shared wait-status classification block of PtyProcess.isalive
(source lines 730-747), reached with the status of whichever os.waitpid
call returned a nonzero pid. -/
def isaliveClassify (st : PtyState) (status : Nat) :
    PtyState × Except PtyErr Bool :=
  if WIFEXITED status then
    ({ st with status := some status, exitstatus := some (WEXITSTATUS status),
               signalstatus := none, terminated := true }, .ok false)
  else if WIFSIGNALED status then
    ({ st with status := some status, exitstatus := none,
               signalstatus := some (WTERMSIG status), terminated := true },
     .ok false)
  else if WIFSTOPPED status then
    (st, .error .ptyProcessError)
  else
    (st, .ok false)

/-- PtyProcess.isalive (source lines 666-747).  The oracle o gives the
result of the n-th os.waitpid call this invocation issues (the source
issues at most two).  Besides the final state and the returned value or
exception, the model returns the trace of waitpid option arguments
actually passed, in order, so that theorems can speak about how many wait
calls were issued and whether they were blocking. -/
def isalive (st : PtyState) (o : Nat → WaitRes) :
    PtyState × Except PtyErr Bool × List Nat :=
  if st.terminated then (st, .ok false, [])
  else
    let opts := if st.flag_eof then 0 else WNOHANG
    match o 0 with
    | .err e =>
      if e = ECHILD then (st, .error .ptyProcessError, [opts])
      else (st, .error (.osError e), [opts])
    | .pair pid status =>
      if pid = 0 then
        match o 1 with
        | .err e =>
          if e = ECHILD then (st, .error .ptyProcessError, [opts, opts])
          else (st, .error (.osError e), [opts, opts])
        | .pair pid2 status2 =>
          if pid2 = 0 then (st, .ok true, [opts, opts])
          else
            ((isaliveClassify st status2).1, (isaliveClassify st status2).2,
             [opts, opts])
      else
        ((isaliveClassify st status).1, (isaliveClassify st status).2, [opts])

/-- The state and result of one self.isalive() call, with the option trace
projected away; used where other methods of the class call isalive. -/
def aliveStep (st : PtyState) (o : Nat → WaitRes) :
    PtyState × Except PtyErr Bool :=
  ((isalive st o).1, (isalive st o).2.1)

/-- PtyProcess.wait (source lines 635-664).  The oracle o feeds the
self.isalive() call made first; w is the result of the blocking
os.waitpid(self.pid, 0) call made when isalive reported true.  Note the
source assigns self.exitstatus from WEXITSTATUS unconditionally before
classifying the status, and that the blocking waitpid call sits outside
any exception handler, so an OSError from it (ECHILD included) propagates
unchanged. -/
def wait (st : PtyState) (o : Nat → WaitRes) (w : WaitRes) :
    PtyState × Except PtyErr (Option Nat) :=
  match aliveStep st o with
  | (st1, .error e) => (st1, .error e)
  | (st1, .ok false) => (st1, .ok st1.exitstatus)
  | (st1, .ok true) =>
    match w with
    | .err e => (st1, .error (.osError e))
    | .pair _ status =>
      let st2 := { st1 with exitstatus := some (WEXITSTATUS status) }
      if WIFEXITED status then
        ({ st2 with status := some status,
                    exitstatus := some (WEXITSTATUS status),
                    signalstatus := none, terminated := true },
         .ok (some (WEXITSTATUS status)))
      else if WIFSIGNALED status then
        ({ st2 with status := some status, exitstatus := none,
                    signalstatus := some (WTERMSIG status),
                    terminated := true },
         .ok none)
      else if WIFSTOPPED status then
        (st2, .error .ptyProcessError)
      else
        (st2, .ok st2.exitstatus)

/-- Whether the body of the terminate try block returned a value or raised
an exception that escapes to the handler of terminate. -/
inductive TermRes where
  | ret (b : Bool)
  | raised (e : PtyErr)
deriving Repr

/-- One pass of the escalation body of PtyProcess.terminate (source lines
603-623) over the remaining signal list: for each signal, self.kill(sig)
(which itself checks self.isalive() and only then calls os.kill, source
lines 749-759), then the grace sleep, then the short-circuit
self.isalive() check; an exhausted list is the final return False.  The
oracle ors gives, for the i-th isalive call within this terminate
invocation, the waitpid oracle that call consumes; ke gives some errno if
the k-th os.kill call raises OSError.  Returns the final state, the
outcome, the list of signal numbers passed to os.kill, and the next
isalive call index. -/
def termLoop (ors : Nat → Nat → WaitRes) (ke : Nat → Option Nat) :
    PtyState → Nat → Nat → List Nat → PtyState × TermRes × List Nat × Nat
  | st, i, _, [] => (st, .ret false, [], i)
  | st, i, k, sig :: rest =>
    match aliveStep st (ors i) with
    | (st1, .error e) => (st1, .raised e, [], i + 1)
    | (st1, .ok aliveNow) =>
      if aliveNow then
        match ke k with
        | some e2 => (st1, .raised (.osError e2), [sig], i + 1)
        | none =>
          match aliveStep st1 (ors (i + 1)) with
          | (st2, .error e) => (st2, .raised e, [sig], i + 2)
          | (st2, .ok stillAlive) =>
            if stillAlive then
              match termLoop ors ke st2 (i + 2) (k + 1) rest with
              | (st3, res, sent, i3) => (st3, res, sig :: sent, i3)
            else (st2, .ret true, [sig], i + 2)
      else
        match aliveStep st1 (ors (i + 1)) with
        | (st2, .error e) => (st2, .raised e, [], i + 2)
        | (st2, .ok stillAlive) =>
          if stillAlive then termLoop ors ke st2 (i + 2) k rest
          else (st2, .ret true, [], i + 2)

/-- PtyProcess.terminate(force) (source lines 595-633).  The initial
self.isalive() check sits outside the try block, so its exceptions
propagate; the escalation body runs SIGHUP, SIGCONT, SIGINT and, when
force is set, SIGKILL; the except OSError handler sleeps one grace delay
and makes one final isalive check that decides the result.  Returns the
final state, the result or exception, and the signals passed to
os.kill. -/
def terminate (st : PtyState) (ors : Nat → Nat → WaitRes)
    (ke : Nat → Option Nat) (force : Bool) :
    PtyState × Except PtyErr Bool × List Nat :=
  match aliveStep st (ors 0) with
  | (st1, .error e) => (st1, .error e, [])
  | (st1, .ok false) => (st1, .ok true, [])
  | (st1, .ok true) =>
    let sigs := [SIGHUP, SIGCONT, SIGINT] ++ (if force then [SIGKILL] else [])
    match termLoop ors ke st1 1 0 sigs with
    | (st2, .ret b, sent, _) => (st2, .ok b, sent)
    | (st2, .raised (.osError _), sent, i2) =>
      match aliveStep st2 (ors i2) with
      | (st3, .error e2) => (st3, .error e2, sent)
      | (st3, .ok aliveNow) => (st3, .ok (!aliveNow), sent)
    | (st2, .raised e, sent, _) => (st2, .error e, sent)

/-- PtyProcess.close(force) (source lines 338-354).  The oracle o feeds the
self.isalive() check after the file object is closed; ors and ke feed the
self.terminate(force) call if that check reports alive.  The third
component counts how many times the underlying descriptor was actually
closed during this call: self.fileobj.close() closes it only if the file
object was not already closed (Python io objects make a repeated close a
no-op). -/
def close (st : PtyState) (o : Nat → WaitRes) (ors : Nat → Nat → WaitRes)
    (ke : Nat → Option Nat) (force : Bool) :
    PtyState × Except PtyErr Unit × Nat :=
  if st.closed then (st, .ok (), 0)
  else
    let fdCloses := if st.fileobjClosed then 0 else 1
    let st1 := { st with fileobjClosed := true }
    match aliveStep st1 o with
    | (st2, .error e) => (st2, .error e, fdCloses)
    | (st2, .ok false) =>
      ({ st2 with fd := -1, closed := true }, .ok (), fdCloses)
    | (st2, .ok true) =>
      match terminate st2 ors ke force with
      | (st3, .error e, _) => (st3, .error e, fdCloses)
      | (st3, .ok termOk, _) =>
        if termOk then ({ st3 with fd := -1, closed := true }, .ok (), fdCloses)
        else (st3, .error .ptyProcessError, fdCloses)

/-- The Python value passed as the argv argument of PtyProcess.spawn: a
list, a tuple, or a value of any other type. -/
inductive Argv where
  | pylist (xs : List String)
  | pytuple (xs : List String)
  | otherVal
deriving Repr

/-- The resource-allocating milestones of PtyProcess.spawn, in the order
the source reaches them: os.pipe() at line 211, then pty_fork() at line
213. -/
inductive SpawnEvent where
  | pipeOpened
  | forked
deriving DecidableEq, Repr

/-- The precondition prologue of PtyProcess.spawn (source lines 189-213):
the argv type check, the argv[0] lookup, the shutil.which resolution, and
then the pipe and fork.  The oracle which models shutil.which.  The event
list records which allocating calls were reached; everything after the
fork is outside the scope of the claims settled here and is elided. -/
def spawn (argv : Argv) (which : String → Option String) :
    Except PtyErr Unit × List SpawnEvent :=
  match argv with
  | .otherVal => (.error .typeError, [])
  | .pylist xs =>
    match xs.head? with
    | none => (.error .indexError, [])
    | some command =>
      match which command with
      | none => (.error .fileNotFoundError, [])
      | some _ => (.ok (), [.pipeOpened, .forked])
  | .pytuple xs =>
    match xs.head? with
    | none => (.error .indexError, [])
    | some command =>
      match which command with
      | none => (.error .fileNotFoundError, [])
      | some _ => (.ok (), [.pipeOpened, .forked])

/-- One state-mutating method invocation on a PtyProcess instance, with the
OS-call results it consumes.  The write-path methods (write, sendcontrol,
sendeof, sendintr) never touch the lifecycle attributes, as is evident
from the source, so they are identity on PtyState and are omitted. -/
inductive Op where
  | opRead (size : Nat) (r : ReadRes)
  | opReadline (r : ReadRes)
  | opIsalive (o : Nat → WaitRes)
  | opWait (o : Nat → WaitRes) (w : WaitRes)
  | opTerminate (ors : Nat → Nat → WaitRes) (ke : Nat → Option Nat)
      (force : Bool)
  | opClose (o : Nat → WaitRes) (ors : Nat → Nat → WaitRes)
      (ke : Nat → Option Nat) (force : Bool)

/-- The state transition of one method invocation. -/
def step (st : PtyState) : Op → PtyState
  | .opRead size r => (read st size r).1
  | .opReadline r => (readline st r).1
  | .opIsalive o => (aliveStep st o).1
  | .opWait o w => (wait st o w).1
  | .opTerminate ors ke force => (terminate st ors ke force).1
  | .opClose o ors ke force => (close st o ors ke force).1

/-- The state after a sequence of method invocations. -/
def run (st : PtyState) : List Op → PtyState
  | [] => st
  | op :: ops => run (step st op) ops

/-- The state transition of one method invocation together with the number
of times that invocation closed the underlying descriptor (nonzero only
for close). -/
def stepCount (st : PtyState) : Op → PtyState × Nat
  | .opClose o ors ke force =>
    ((close st o ors ke force).1, (close st o ors ke force).2.2)
  | op => (step st op, 0)

/-- The state after a sequence of method invocations together with the
total number of underlying descriptor closes they performed. -/
def runCount (st : PtyState) : List Op → PtyState × Nat
  | [] => (st, 0)
  | op :: ops =>
    ((runCount (stepCount st op).1 ops).1,
     (stepCount st op).2 + (runCount (stepCount st op).1 ops).2)

/-- The channel-ownership attributes preserved by the liveness machinery:
samePres st st1 says st1 agrees with st on flag_eof, closed, fileobjClosed
and fd. -/
def samePres (st st1 : PtyState) : Prop :=
  st1.flag_eof = st.flag_eof ∧ st1.closed = st.closed ∧
  st1.fileobjClosed = st.fileobjClosed ∧ st1.fd = st.fd

/-- The exit-information invariant of the data model: whenever terminated
is true, exactly one of exitstatus and signalstatus is non-null. -/
def statusInv (st : PtyState) : Prop :=
  st.terminated = true →
    (st.exitstatus ≠ none ∧ st.signalstatus = none) ∨
    (st.exitstatus = none ∧ st.signalstatus ≠ none)

/-- How many descriptor closes the handle can still perform: one if the
file object is still open, zero otherwise. -/
def gaugeFd (st : PtyState) : Nat := if st.fileobjClosed then 0 else 1

/-- A waitpid oracle that always reports no status yet (pid 0), making
isalive report the process alive. -/
def aliveO : Nat → WaitRes := fun _ => .pair 0 0

/-- A waitpid oracle reporting a reaped child with a normal-exit status 0,
making isalive classify the process as terminated. -/
def exitedO : Nat → WaitRes := fun _ => .pair 1 0

/-- A family of waitpid oracles under which every isalive call reports the
process alive. -/
def alwaysAlive : Nat → Nat → WaitRes := fun _ => aliveO

/-- A family of waitpid oracles under which the isalive calls numbered
below m report the process alive and the later ones report it exited. -/
def diesAt (m : Nat) : Nat → Nat → WaitRes :=
  fun n => if n < m then aliveO else exitedO

/-- A kill-error oracle under which the first os.kill call raises OSError
with errno 3 (no such process) and later ones succeed. -/
def killErrFirst : Nat → Option Nat := fun k => if k = 0 then some 3 else none

/-- Claim C1, counterexample: the claim states that sendcontrol maps both
the underscore and the question mark to byte 127, but the source dictionary
maps the underscore (code 95) to 31; only the question mark maps to 127. -/
theorem sendcontrol_underscore_cex :
    sendcontrol 95 = (1, [31]) ∧ sendcontrol 95 ≠ (1, [127]) := by decide

/-- Claim C1 (amended): for every single-character ASCII input to
sendcontrol, letters a-z produce and write the single byte with code 1-26;
the punctuation aliases map the at sign and backquote to 0, the left
brackets to 27, backslash and vertical bar to 28, the right brackets to 29,
caret and tilde to 30, the underscore to 31 and the question mark to 127;
any unrecognized input writes zero bytes and returns a zero-length byte
result. -/
theorem sendcontrol_mapping :
    (∀ a, 97 ≤ a → a ≤ 122 → sendcontrol a = (1, [a - 96])) ∧
    (sendcontrol 64 = (1, [0]) ∧ sendcontrol 96 = (1, [0]) ∧
     sendcontrol 91 = (1, [27]) ∧ sendcontrol 123 = (1, [27]) ∧
     sendcontrol 92 = (1, [28]) ∧ sendcontrol 124 = (1, [28]) ∧
     sendcontrol 93 = (1, [29]) ∧ sendcontrol 125 = (1, [29]) ∧
     sendcontrol 94 = (1, [30]) ∧ sendcontrol 126 = (1, [30]) ∧
     sendcontrol 95 = (1, [31]) ∧ sendcontrol 63 = (1, [127])) ∧
    (∀ a, a < 128 → ¬(65 ≤ a ∧ a ≤ 90) → ¬(97 ≤ a ∧ a ≤ 122) →
      a ∉ ([64, 96, 91, 123, 92, 124, 93, 125, 94, 126, 95, 63] : List Nat) →
      sendcontrol a = (0, [])) := by
  refine ⟨?_, by decide, ?_⟩
  · have key : ∀ a, a < 123 → 97 ≤ a → sendcontrol a = (1, [a - 96]) := by
      decide
    exact fun a h1 h2 => key a (Nat.lt_succ_of_le h2) h1
  · have key : ∀ a, a < 128 →
        (¬(65 ≤ a ∧ a ≤ 90) ∧ ¬(97 ≤ a ∧ a ≤ 122) ∧
          a ∉ ([64, 96, 91, 123, 92, 124, 93, 125, 94, 126, 95, 63] :
            List Nat)) →
        sendcontrol a = (0, []) := by decide
    exact fun a h1 h2 h3 h4 => key a h1 ⟨h2, h3, h4⟩

/-- Witness for sendcontrol_mapping: the letter c (code 99) maps to byte 3,
and the unmapped digit 9 (code 57) writes zero bytes and returns an empty
result. -/
theorem sendcontrol_mapping_witness :
    sendcontrol 99 = (1, [3]) ∧ sendcontrol 57 = (0, []) :=
  ⟨sendcontrol_mapping.1 99 (by decide) (by decide),
   sendcontrol_mapping.2.2 57 (by decide) (by decide) (by decide) (by decide)⟩

/-- Claim C10: sendcontrol lowercases its argument before lookup, so every
uppercase letter A-Z produces exactly the same written byte and return
value as the corresponding lowercase letter. -/
theorem sendcontrol_uppercase :
    ∀ a, 65 ≤ a → a ≤ 90 → sendcontrol a = sendcontrol (a + 32) := by
  have key : ∀ a, a < 91 → 65 ≤ a → sendcontrol a = sendcontrol (a + 32) := by
    decide
  exact fun a h1 h2 => key a (Nat.lt_succ_of_le h2) h1

/-- Witness for sendcontrol_uppercase: the letter C (code 67) behaves like
the letter c (code 99). -/
theorem sendcontrol_uppercase_witness :
    sendcontrol 67 = sendcontrol 99 :=
  sendcontrol_uppercase 67 (by decide) (by decide)

/-- Claim C2: read and readline turn an underlying OSError with code EIO,
or an underlying successful read of zero bytes, into flag_eof set and an
EOFError; any OSError with a different code propagates unchanged with the
state untouched; otherwise the bytes actually read are returned as they
are, with no retry to fill the requested size. -/
theorem read_eof_spec :
    (∀ st size, read st size (.err EIO) =
      ({ st with flag_eof := true }, .error .eofError)) ∧
    (∀ st size e, e ≠ EIO → read st size (.err e) =
      (st, .error (.osError e))) ∧
    (∀ st size, read st size (.bytes []) =
      ({ st with flag_eof := true }, .error .eofError)) ∧
    (∀ st size s, s ≠ [] → read st size (.bytes s) = (st, .ok s)) ∧
    (∀ st, readline st (.err EIO) =
      ({ st with flag_eof := true }, .error .eofError)) ∧
    (∀ st e, e ≠ EIO → readline st (.err e) = (st, .error (.osError e))) ∧
    (∀ st, readline st (.bytes []) =
      ({ st with flag_eof := true }, .error .eofError)) ∧
    (∀ st s, s ≠ [] → readline st (.bytes s) = (st, .ok s)) := by
  refine ⟨?_, ?_, ?_, ?_, ?_, ?_, ?_, ?_⟩
  · intro st size; simp [read]
  · intro st size e h; simp [read, h]
  · intro st size; simp [read]
  · intro st size s h; simp [read, h]
  · intro st; simp [readline]
  · intro st e h; simp [readline, h]
  · intro st; simp [readline]
  · intro st s h; simp [readline, h]

/-- Witness for read_eof_spec: errno 13 is not EIO and propagates; a
two-byte read result is returned as is even though 1024 bytes were
requested. -/
theorem read_eof_spec_witness :
    read (initState 42 3) 1024 (.err 13) =
      (initState 42 3, .error (.osError 13)) ∧
    read (initState 42 3) 1024 (.bytes [104, 105]) =
      (initState 42 3, .ok [104, 105]) ∧
    readline (initState 42 3) (.err 13) =
      (initState 42 3, .error (.osError 13)) ∧
    readline (initState 42 3) (.bytes [104, 10]) =
      (initState 42 3, .ok [104, 10]) :=
  ⟨read_eof_spec.2.1 _ _ 13 (by decide),
   read_eof_spec.2.2.2.1 _ _ _ (by decide),
   read_eof_spec.2.2.2.2.2.1 _ 13 (by decide),
   read_eof_spec.2.2.2.2.2.2.2 _ _ (by decide)⟩

/-- Claim C8: spawn fails before any process or descriptor is created when
its preconditions are violated: an argv that is not a list or tuple raises
TypeError, and a program name that shutil.which cannot resolve raises
FileNotFoundError; in both cases no pipe is opened and no fork happens (the
event trace is empty), whereas on the success path the pipe open strictly
precedes the fork. -/
theorem spawn_preconditions :
    (∀ which, spawn .otherVal which = (.error .typeError, [])) ∧
    (∀ xs command which, xs.head? = some command → which command = none →
      spawn (.pylist xs) which = (.error .fileNotFoundError, [])) ∧
    (∀ xs command which, xs.head? = some command → which command = none →
      spawn (.pytuple xs) which = (.error .fileNotFoundError, [])) ∧
    (∀ xs command p which, xs.head? = some command → which command = some p →
      spawn (.pylist xs) which = (.ok (), [.pipeOpened, .forked])) := by
  refine ⟨?_, ?_, ?_, ?_⟩
  · intro which; rfl
  · intro xs command which h1 h2; simp [spawn, h1, h2]
  · intro xs command which h1 h2; simp [spawn, h1, h2]
  · intro xs command p which h1 h2; simp [spawn, h1, h2]

/-- Witness for spawn_preconditions: a one-element argv whose command name
resolves to nothing fails with FileNotFoundError and an empty event trace,
for both the list and the tuple form, and a resolvable command reaches the
pipe and the fork. -/
theorem spawn_preconditions_witness :
    spawn .otherVal (fun _ => none) = (.error .typeError, []) ∧
    spawn (.pylist ["nosuchcmd"]) (fun _ => none) =
      (.error .fileNotFoundError, []) ∧
    spawn (.pytuple ["nosuchcmd"]) (fun _ => none) =
      (.error .fileNotFoundError, []) ∧
    spawn (.pylist ["sh"]) (fun _ => some "/bin/sh") =
      (.ok (), [.pipeOpened, .forked]) :=
  ⟨spawn_preconditions.1 _,
   spawn_preconditions.2.1 ["nosuchcmd"] "nosuchcmd" _ rfl rfl,
   spawn_preconditions.2.2.1 ["nosuchcmd"] "nosuchcmd" _ rfl rfl,
   spawn_preconditions.2.2.2 ["sh"] "sh" "/bin/sh" _ rfl rfl⟩

/-- A stopped wait status is neither an exited nor a signal-terminated one:
its low byte is 0x7f, so its termination-signal field is 127. -/
theorem stopped_not_exited_or_signaled (u : Nat) (h : WIFSTOPPED u = true) :
    WIFEXITED u = false ∧ WIFSIGNALED u = false := by
  have h1 : u % 256 = 127 := by simpa [WIFSTOPPED] using h
  have h3 : u % 256 % 128 = u % 128 := Nat.mod_mod_of_dvd u (by norm_num)
  have h2 : u % 128 = 127 := by rw [← h3, h1]
  refine ⟨?_, ?_⟩
  · simp [WIFEXITED, h2]
  · simp [WIFSIGNALED, h2]

/-- A signal-terminated wait status is not an exited one: its
termination-signal field is at least 1. -/
theorem signaled_not_exited (u : Nat) (h : WIFSIGNALED u = true) :
    WIFEXITED u = false := by
  simp [WIFSIGNALED] at h
  simp [WIFEXITED]
  omega

/-- Claim C4: isalive on a terminated handle returns false without issuing
any wait call; otherwise every wait call it issues is non-blocking (option
WNOHANG) when flag_eof is false and blocking (option 0) when flag_eof is
true; a first call reporting pid 0 is retried exactly once more (two calls
total, never more); a first call reporting a nonzero pid is not retried;
and if both calls report pid 0 the process is considered alive, with the
state unchanged. -/
theorem isalive_protocol :
    (∀ st o, st.terminated = true → isalive st o = (st, .ok false, [])) ∧
    (∀ st o, st.terminated = false → st.flag_eof = false →
      ∀ x ∈ (isalive st o).2.2, x = WNOHANG) ∧
    (∀ st o, st.terminated = false → st.flag_eof = true →
      ∀ x ∈ (isalive st o).2.2, x = 0) ∧
    (∀ st o, st.terminated = false → (isalive st o).2.2 ≠ []) ∧
    (∀ st o u, st.terminated = false → o 0 = .pair 0 u →
      (isalive st o).2.2.length = 2) ∧
    (∀ st o pid u, st.terminated = false → o 0 = .pair pid u → pid ≠ 0 →
      (isalive st o).2.2.length = 1) ∧
    (∀ st o u1 u2, st.terminated = false → o 0 = .pair 0 u1 →
      o 1 = .pair 0 u2 →
      (isalive st o).1 = st ∧ (isalive st o).2.1 = .ok true) := by
  refine ⟨?_, ?_, ?_, ?_, ?_, ?_, ?_⟩
  · intro st o h; simp [isalive, h]
  · intro st o h1 h2
    simp only [isalive, h1, h2]
    repeat' split
    all_goals simp_all
  · intro st o h1 h2
    simp only [isalive, h1, h2]
    repeat' split
    all_goals simp_all
  · intro st o h1
    simp only [isalive, h1]
    repeat' split
    all_goals simp_all
  · intro st o u h1 h2
    simp only [isalive, h1, h2]
    repeat' split
    all_goals simp_all
  · intro st o pid u h1 h2 h3
    simp only [isalive, h1, h2]
    repeat' split
    all_goals simp_all
  · intro st o u1 u2 h1 h2 h3
    simp only [isalive, h1, h2, h3]
    repeat' split
    all_goals simp_all

/-- Witness for isalive_protocol: a terminated handle answers false with no
wait call; a fresh handle whose waitpid reports pid 0 twice issues exactly
two non-blocking calls and stays alive. -/
theorem isalive_protocol_witness :
    isalive { initState 42 3 with terminated := true } (fun _ => .pair 0 0) =
      ({ initState 42 3 with terminated := true }, .ok false, []) ∧
    (∀ x ∈ (isalive (initState 42 3) (fun _ => .pair 0 0)).2.2,
      x = WNOHANG) ∧
    (isalive (initState 42 3) (fun _ => .pair 0 0)).2.2.length = 2 ∧
    (isalive (initState 42 3) (fun _ => .pair 0 0)).1 = initState 42 3 ∧
    (isalive (initState 42 3) (fun _ => .pair 0 0)).2.1 = .ok true :=
  ⟨isalive_protocol.1 { initState 42 3 with terminated := true }
     (fun _ => .pair 0 0) rfl,
   isalive_protocol.2.1 (initState 42 3) (fun _ => .pair 0 0) rfl rfl,
   isalive_protocol.2.2.2.2.1 (initState 42 3) (fun _ => .pair 0 0) 0
     rfl rfl,
   (isalive_protocol.2.2.2.2.2.2 (initState 42 3) (fun _ => .pair 0 0) 0 0
     rfl rfl rfl).1,
   (isalive_protocol.2.2.2.2.2.2 (initState 42 3) (fun _ => .pair 0 0) 0 0
     rfl rfl rfl).2⟩

/-- Claim C9, counterexample: with a not-yet-terminated handle whose
isalive probe reports still alive (pid 0 twice), a blocking waitpid in wait
that fails with ECHILD propagates as the OS error, not as the distinguished
PtyProcessError the claim requires for every wait call made while
terminated is false. -/
theorem wait_echild_cex :
    (wait (initState 42 3) (fun _ => .pair 0 0) (.err ECHILD)).2 =
      .error (.osError ECHILD) ∧
    PtyErr.osError ECHILD ≠ PtyErr.ptyProcessError ∧
    (initState 42 3).terminated = false :=
  ⟨rfl, by decide, rfl⟩

/-- Claim C9 (amended): observing a stopped child raises PtyProcessError in
the classification of both isalive (either waitpid call) and wait, and an
ECHILD failure of either waitpid call in isalive while terminated is false
raises PtyProcessError; but an ECHILD failure of the blocking waitpid in
wait itself propagates unchanged as the OS error.  None of these conditions
is reported as a normal alive/not-alive or exit-status answer. -/
theorem protocol_violation_spec :
    (∀ st o pid u, st.terminated = false → o 0 = .pair pid u → pid ≠ 0 →
      WIFSTOPPED u = true →
      (isalive st o).2.1 = .error .ptyProcessError) ∧
    (∀ st o u1 pid2 u2, st.terminated = false → o 0 = .pair 0 u1 →
      o 1 = .pair pid2 u2 → pid2 ≠ 0 → WIFSTOPPED u2 = true →
      (isalive st o).2.1 = .error .ptyProcessError) ∧
    (∀ st o st1 p u, aliveStep st o = (st1, .ok true) →
      WIFSTOPPED u = true →
      (wait st o (.pair p u)).2 = .error .ptyProcessError) ∧
    (∀ st o, st.terminated = false → o 0 = .err ECHILD →
      (isalive st o).2.1 = .error .ptyProcessError) ∧
    (∀ st o u1, st.terminated = false → o 0 = .pair 0 u1 →
      o 1 = .err ECHILD →
      (isalive st o).2.1 = .error .ptyProcessError) ∧
    (∀ st o st1 e, aliveStep st o = (st1, .ok true) →
      wait st o (.err e) = (st1, .error (.osError e))) := by
  refine ⟨?_, ?_, ?_, ?_, ?_, ?_⟩
  · intro st o pid u h1 h2 h3 h4
    obtain ⟨he, hs⟩ := stopped_not_exited_or_signaled u h4
    simp [isalive, isaliveClassify, h1, h2, h3, h4, he, hs]
  · intro st o u1 pid2 u2 h1 h2 h3 h4 h5
    obtain ⟨he, hs⟩ := stopped_not_exited_or_signaled u2 h5
    simp [isalive, isaliveClassify, h1, h2, h3, h4, h5, he, hs]
  · intro st o st1 p u h1 h2
    obtain ⟨he, hs⟩ := stopped_not_exited_or_signaled u h2
    simp [wait, h1, h2, he, hs]
  · intro st o h1 h2
    simp [isalive, h1, h2, ECHILD]
  · intro st o u1 h1 h2 h3
    simp [isalive, h1, h2, h3, ECHILD]
  · intro st o st1 e h1
    simp [wait, h1]

/-- Witness for protocol_violation_spec: status 127 is a stopped status; a
fresh handle with a pid-0-then-stopped oracle raises PtyProcessError from
isalive; an always-pid-0 oracle makes isalive report alive so that a
blocking wait result can be classified or can fail. -/
theorem protocol_violation_spec_witness :
    (isalive (initState 42 3) (fun _ => .pair 7 127)).2.1 =
      .error .ptyProcessError ∧
    (isalive (initState 42 3)
      (fun n => if n = 0 then .pair 0 0 else .pair 7 127)).2.1 =
      .error .ptyProcessError ∧
    (wait (initState 42 3) (fun _ => .pair 0 0) (.pair 42 127)).2 =
      .error .ptyProcessError ∧
    (isalive (initState 42 3) (fun _ => .err ECHILD)).2.1 =
      .error .ptyProcessError ∧
    (isalive (initState 42 3)
      (fun n => if n = 0 then .pair 0 0 else .err ECHILD)).2.1 =
      .error .ptyProcessError ∧
    wait (initState 42 3) (fun _ => .pair 0 0) (.err 4) =
      (initState 42 3, .error (.osError 4)) :=
  ⟨protocol_violation_spec.1 (initState 42 3) (fun _ => .pair 7 127) 7 127
     rfl rfl (by decide) (by decide),
   protocol_violation_spec.2.1 (initState 42 3)
     (fun n => if n = 0 then .pair 0 0 else .pair 7 127) 0 7 127
     rfl rfl rfl (by decide) (by decide),
   protocol_violation_spec.2.2.1 (initState 42 3) (fun _ => .pair 0 0)
     (initState 42 3) 42 127 rfl (by decide),
   protocol_violation_spec.2.2.2.1 (initState 42 3) (fun _ => .err ECHILD)
     rfl rfl,
   protocol_violation_spec.2.2.2.2.1 (initState 42 3)
     (fun n => if n = 0 then .pair 0 0 else .err ECHILD) 0 rfl rfl rfl,
   protocol_violation_spec.2.2.2.2.2 (initState 42 3) (fun _ => .pair 0 0)
     (initState 42 3) 4 rfl⟩

/-- Reflexivity of the channel-attribute preservation relation. -/
theorem samePres_refl (st : PtyState) : samePres st st :=
  ⟨rfl, rfl, rfl, rfl⟩

/-- Transitivity of the channel-attribute preservation relation. -/
theorem samePres_trans {st st1 st2 : PtyState} (h1 : samePres st st1)
    (h2 : samePres st1 st2) : samePres st st2 :=
  ⟨h2.1.trans h1.1, h2.2.1.trans h1.2.1, h2.2.2.1.trans h1.2.2.1,
   h2.2.2.2.trans h1.2.2.2⟩

/-- The classification block of isalive touches only the exit-information
attributes. -/
theorem isaliveClassify_pres (st : PtyState) (u : Nat) :
    samePres st (isaliveClassify st u).1 := by
  unfold isaliveClassify
  repeat' split
  all_goals exact ⟨rfl, rfl, rfl, rfl⟩

/-- isalive touches only the exit-information attributes. -/
theorem isalive_pres (st : PtyState) (o : Nat → WaitRes) :
    samePres st (isalive st o).1 := by
  unfold isalive
  repeat' split
  all_goals first
    | exact ⟨rfl, rfl, rfl, rfl⟩
    | exact isaliveClassify_pres st _

/-- aliveStep touches only the exit-information attributes. -/
theorem aliveStep_pres (st : PtyState) (o : Nat → WaitRes) :
    samePres st (aliveStep st o).1 :=
  isalive_pres st o

/-- wait touches only the exit-information attributes. -/
theorem wait_pres (st : PtyState) (o : Nat → WaitRes) (w : WaitRes) :
    samePres st (wait st o w).1 := by
  unfold wait
  rcases h : aliveStep st o with ⟨st1, r⟩
  have hs : samePres st st1 := by
    have hp := aliveStep_pres st o; rw [h] at hp; exact hp
  cases r with
  | error e => exact hs
  | ok b =>
    cases b with
    | false => exact hs
    | true =>
      cases w with
      | err e => exact hs
      | pair p status =>
        try dsimp only
        repeat' split
        all_goals exact hs

/-- The escalation loop of terminate touches only the exit-information
attributes. -/
theorem termLoop_pres (ors : Nat → Nat → WaitRes) (ke : Nat → Option Nat) :
    ∀ sigs st i k, samePres st (termLoop ors ke st i k sigs).1 := by
  intro sigs
  induction sigs with
  | nil => intro st i k; exact samePres_refl st
  | cons sig rest ih =>
    intro st i k
    simp only [termLoop]
    rcases e1 : aliveStep st (ors i) with ⟨st1, r1⟩
    have h1 : samePres st st1 := by
      have hp := aliveStep_pres st (ors i); rw [e1] at hp; exact hp
    cases r1 with
    | error e => exact h1
    | ok aliveNow =>
      try dsimp only
      split
      · -- aliveNow is true: self.kill consults ke
        cases hke : ke k with
        | some e2 => exact h1
        | none =>
          try dsimp only
          rcases e2 : aliveStep st1 (ors (i + 1)) with ⟨st2, r2⟩
          have h2 : samePres st1 st2 := by
            have hp := aliveStep_pres st1 (ors (i + 1)); rw [e2] at hp
            exact hp
          cases r2 with
          | error e => exact samePres_trans h1 h2
          | ok stillAlive =>
            try dsimp only
            split
            · rcases e3 : termLoop ors ke st2 (i + 2) (k + 1) rest with
                ⟨st3, res, sent, i3⟩
              have h3 : samePres st2 st3 := by
                have hp := ih st2 (i + 2) (k + 1); rw [e3] at hp; exact hp
              exact samePres_trans h1 (samePres_trans h2 h3)
            · exact samePres_trans h1 h2
      · -- aliveNow is false: os.kill skipped
        try dsimp only
        rcases e2 : aliveStep st1 (ors (i + 1)) with ⟨st2, r2⟩
        have h2 : samePres st1 st2 := by
          have hp := aliveStep_pres st1 (ors (i + 1)); rw [e2] at hp
          exact hp
        cases r2 with
        | error e => exact samePres_trans h1 h2
        | ok stillAlive =>
          try dsimp only
          split
          · exact samePres_trans h1 (samePres_trans h2 (ih st2 (i + 2) k))
          · exact samePres_trans h1 h2

/-- terminate touches only the exit-information attributes. -/
theorem terminate_pres (st : PtyState) (ors : Nat → Nat → WaitRes)
    (ke : Nat → Option Nat) (force : Bool) :
    samePres st (terminate st ors ke force).1 := by
  have h0 := aliveStep_pres st (ors 0)
  unfold terminate
  rcases e0 : aliveStep st (ors 0) with ⟨st1, r0⟩
  rw [e0] at h0
  cases r0 with
  | error e => exact h0
  | ok b =>
    cases b with
    | false => exact h0
    | true =>
      try dsimp only
      have hl := termLoop_pres ors ke
        ([SIGHUP, SIGCONT, SIGINT] ++ if force then [SIGKILL] else []) st1 1 0
      rcases el : termLoop ors ke st1 1 0
          ([SIGHUP, SIGCONT, SIGINT] ++ if force then [SIGKILL] else []) with
        ⟨st2, res, sent, i2⟩
      rw [el] at hl
      cases res with
      | ret b2 => exact samePres_trans h0 hl
      | raised e =>
        cases e with
        | osError e1 =>
          have h2 := aliveStep_pres st2 (ors i2)
          try dsimp only
          rcases e2 : aliveStep st2 (ors i2) with ⟨st3, r3⟩
          rw [e2] at h2
          cases r3 with
          | error e3 => exact samePres_trans h0 (samePres_trans hl h2)
          | ok b3 => exact samePres_trans h0 (samePres_trans hl h2)
        | eofError => exact samePres_trans h0 hl
        | ptyProcessError => exact samePres_trans h0 hl
        | typeError => exact samePres_trans h0 hl
        | fileNotFoundError => exact samePres_trans h0 hl
        | indexError => exact samePres_trans h0 hl

/-- read never changes the flag_eof attribute back to false, and touches
nothing but flag_eof. -/
theorem read_flag_mono (st : PtyState) (size : Nat) (r : ReadRes)
    (h : st.flag_eof = true) : (read st size r).1.flag_eof = true := by
  cases r with
  | bytes s =>
    by_cases hs : s = []
    · simp [read, hs]
    · simp [read, hs, h]
  | err e =>
    by_cases he : e = EIO
    · simp [read, he]
    · simp [read, he, h]

/-- readline never changes the flag_eof attribute back to false. -/
theorem readline_flag_mono (st : PtyState) (r : ReadRes)
    (h : st.flag_eof = true) : (readline st r).1.flag_eof = true := by
  cases r with
  | bytes s =>
    by_cases hs : s = []
    · simp [readline, hs]
    · simp [readline, hs, h]
  | err e =>
    by_cases he : e = EIO
    · simp [readline, he]
    · simp [readline, he, h]

/-- read leaves the ownership attributes other than flag_eof unchanged. -/
theorem read_own_pres (st : PtyState) (size : Nat) (r : ReadRes) :
    (read st size r).1.closed = st.closed ∧
    (read st size r).1.fileobjClosed = st.fileobjClosed ∧
    (read st size r).1.fd = st.fd ∧
    (read st size r).1.terminated = st.terminated ∧
    (read st size r).1.exitstatus = st.exitstatus ∧
    (read st size r).1.signalstatus = st.signalstatus := by
  unfold read
  repeat' split
  all_goals exact ⟨rfl, rfl, rfl, rfl, rfl, rfl⟩

/-- readline leaves the ownership attributes other than flag_eof
unchanged. -/
theorem readline_own_pres (st : PtyState) (r : ReadRes) :
    (readline st r).1.closed = st.closed ∧
    (readline st r).1.fileobjClosed = st.fileobjClosed ∧
    (readline st r).1.fd = st.fd ∧
    (readline st r).1.terminated = st.terminated ∧
    (readline st r).1.exitstatus = st.exitstatus ∧
    (readline st r).1.signalstatus = st.signalstatus := by
  unfold readline
  repeat' split
  all_goals exact ⟨rfl, rfl, rfl, rfl, rfl, rfl⟩

/-- close leaves flag_eof unchanged. -/
theorem close_flag (st : PtyState) (o : Nat → WaitRes)
    (ors : Nat → Nat → WaitRes) (ke : Nat → Option Nat) (force : Bool) :
    (close st o ors ke force).1.flag_eof = st.flag_eof := by
  unfold close
  split
  · rfl
  · dsimp only
    rcases e1 : aliveStep { st with fileobjClosed := true } o with ⟨st2, r1⟩
    have h1 : samePres { st with fileobjClosed := true } st2 := by
      have hp := aliveStep_pres { st with fileobjClosed := true } o
      rw [e1] at hp; exact hp
    cases r1 with
    | error e => exact h1.1
    | ok b =>
      cases b with
      | false => exact h1.1
      | true =>
        try dsimp only
        rcases e2 : terminate st2 ors ke force with ⟨st3, r3, sent⟩
        have h2 : samePres st2 st3 := by
          have hp := terminate_pres st2 ors ke force; rw [e2] at hp; exact hp
        cases r3 with
        | error e => exact h2.1.trans h1.1
        | ok b3 =>
          try dsimp only
          split
          · exact h2.1.trans h1.1
          · exact h2.1.trans h1.1

/-- One method invocation never changes flag_eof from true back to
false. -/
theorem step_flag_mono (st : PtyState) (op : Op) (h : st.flag_eof = true) :
    (step st op).flag_eof = true := by
  cases op with
  | opRead size r => exact read_flag_mono st size r h
  | opReadline r => exact readline_flag_mono st r h
  | opIsalive o => exact (aliveStep_pres st o).1.trans h
  | opWait o w => exact (wait_pres st o w).1.trans h
  | opTerminate ors ke force => exact (terminate_pres st ors ke force).1.trans h
  | opClose o ors ke force => exact (close_flag st o ors ke force).trans h

/-- Claim C7: flag_eof is monotone: once true, no sequence of method
invocations on the handle ever makes it false again, and eof() keeps
returning true; moreover read and readline set it to true on either EOF
signature (empty read or EIO). -/
theorem flag_eof_monotone :
    (∀ st ops, st.flag_eof = true →
      (run st ops).flag_eof = true ∧ eof (run st ops) = true) ∧
    (∀ st size, (read st size (.bytes [])).1.flag_eof = true ∧
      (read st size (.err EIO)).1.flag_eof = true) ∧
    (∀ st, (readline st (.bytes [])).1.flag_eof = true ∧
      (readline st (.err EIO)).1.flag_eof = true) := by
  refine ⟨?_, ?_, ?_⟩
  · have key : ∀ ops st, st.flag_eof = true → (run st ops).flag_eof = true := by
      intro ops
      induction ops with
      | nil => intro st h; exact h
      | cons op rest ih =>
        intro st h
        exact ih (step st op) (step_flag_mono st op h)
    exact fun st ops h => ⟨key ops st h, key ops st h⟩
  · intro st size; exact ⟨by simp [read], by simp [read]⟩
  · intro st; exact ⟨by simp [readline], by simp [readline]⟩

/-- Witness for flag_eof_monotone: a handle that has just seen EOF keeps
flag_eof and eof() true across an isalive, a wait, a terminate and a close
invocation. -/
theorem flag_eof_monotone_witness :
    (run { initState 42 3 with flag_eof := true }
      [Op.opIsalive aliveO, Op.opWait aliveO (.pair 42 0),
       Op.opTerminate alwaysAlive killErrFirst true,
       Op.opClose exitedO alwaysAlive killErrFirst true]).flag_eof = true ∧
    eof (run { initState 42 3 with flag_eof := true }
      [Op.opIsalive aliveO, Op.opWait aliveO (.pair 42 0),
       Op.opTerminate alwaysAlive killErrFirst true,
       Op.opClose exitedO alwaysAlive killErrFirst true]) = true :=
  flag_eof_monotone.1 { initState 42 3 with flag_eof := true }
    [Op.opIsalive aliveO, Op.opWait aliveO (.pair 42 0),
     Op.opTerminate alwaysAlive killErrFirst true,
     Op.opClose exitedO alwaysAlive killErrFirst true] rfl

/-- The classification block of isalive preserves the exit-information
invariant: its terminating branches set exactly one status field. -/
theorem isaliveClassify_inv (st : PtyState) (u : Nat) (h : statusInv st) :
    statusInv (isaliveClassify st u).1 := by
  unfold isaliveClassify
  repeat' split
  · exact fun _ => Or.inl ⟨Option.some_ne_none _, rfl⟩
  · exact fun _ => Or.inr ⟨rfl, Option.some_ne_none _⟩
  · exact h
  · exact h

/-- The classification block of isalive never reports the process alive. -/
theorem isaliveClassify_not_true (st : PtyState) (u : Nat) :
    (isaliveClassify st u).2 ≠ .ok true := by
  unfold isaliveClassify
  repeat' split
  all_goals simp

/-- isalive preserves the exit-information invariant. -/
theorem isalive_inv (st : PtyState) (o : Nat → WaitRes) (h : statusInv st) :
    statusInv (isalive st o).1 := by
  unfold isalive
  repeat' split
  all_goals first
    | exact h
    | exact isaliveClassify_inv st _ h

/-- When isalive reports the process alive, the state is unchanged and the
handle was not terminated. -/
theorem isalive_true (st : PtyState) (o : Nat → WaitRes) :
    (isalive st o).2.1 = .ok true →
    (isalive st o).1 = st ∧ st.terminated = false := by
  unfold isalive
  repeat' split
  all_goals intro h
  all_goals first
    | exact absurd h (isaliveClassify_not_true st _)
    | simp_all

/-- wait preserves the exit-information invariant. -/
theorem wait_inv (st : PtyState) (o : Nat → WaitRes) (w : WaitRes)
    (h : statusInv st) : statusInv (wait st o w).1 := by
  unfold wait
  rcases e : aliveStep st o with ⟨st1, r⟩
  have e1 : (isalive st o).1 = st1 := congrArg Prod.fst e
  have hstep : statusInv st1 := by
    have hp := isalive_inv st o h
    rwa [e1] at hp
  cases r with
  | error _ => exact hstep
  | ok b =>
    cases b with
    | false => exact hstep
    | true =>
      have hA := isalive_true st o (congrArg Prod.snd e)
      have hterm : st1.terminated = false := by
        rw [e1.symm.trans hA.1]
        exact hA.2
      cases w with
      | err _ => exact hstep
      | pair p u =>
        try dsimp only
        repeat' split
        · exact fun _ => Or.inl ⟨Option.some_ne_none _, rfl⟩
        · exact fun _ => Or.inr ⟨rfl, Option.some_ne_none _⟩
        · intro h2; simp [hterm] at h2
        · intro h2; simp [hterm] at h2

/-- The escalation loop of terminate preserves the exit-information
invariant. -/
theorem termLoop_inv (ors : Nat → Nat → WaitRes) (ke : Nat → Option Nat) :
    ∀ sigs st i k, statusInv st →
      statusInv (termLoop ors ke st i k sigs).1 := by
  intro sigs
  induction sigs with
  | nil => intro st i k h; exact h
  | cons sig rest ih =>
    intro st i k h
    simp only [termLoop]
    rcases e1 : aliveStep st (ors i) with ⟨st1, r1⟩
    have h1 : statusInv st1 := by
      have hp := isalive_inv st (ors i) h
      have ef : (isalive st (ors i)).1 = st1 := congrArg Prod.fst e1
      rwa [ef] at hp
    cases r1 with
    | error e => exact h1
    | ok aliveNow =>
      try dsimp only
      split
      · cases hke : ke k with
        | some e2 => exact h1
        | none =>
          try dsimp only
          rcases e2 : aliveStep st1 (ors (i + 1)) with ⟨st2, r2⟩
          have h2 : statusInv st2 := by
            have hp := isalive_inv st1 (ors (i + 1)) h1
            have ef : (isalive st1 (ors (i + 1))).1 = st2 :=
              congrArg Prod.fst e2
            rwa [ef] at hp
          cases r2 with
          | error e => exact h2
          | ok stillAlive =>
            try dsimp only
            split
            · rcases e3 : termLoop ors ke st2 (i + 2) (k + 1) rest with
                ⟨st3, res, sent, i3⟩
              have h3 := ih st2 (i + 2) (k + 1) h2
              rw [e3] at h3
              exact h3
            · exact h2
      · try dsimp only
        rcases e2 : aliveStep st1 (ors (i + 1)) with ⟨st2, r2⟩
        have h2 : statusInv st2 := by
          have hp := isalive_inv st1 (ors (i + 1)) h1
          have ef : (isalive st1 (ors (i + 1))).1 = st2 :=
            congrArg Prod.fst e2
          rwa [ef] at hp
        cases r2 with
        | error e => exact h2
        | ok stillAlive =>
          try dsimp only
          split
          · exact ih st2 (i + 2) k h2
          · exact h2

/-- terminate preserves the exit-information invariant. -/
theorem terminate_inv (st : PtyState) (ors : Nat → Nat → WaitRes)
    (ke : Nat → Option Nat) (force : Bool) (h : statusInv st) :
    statusInv (terminate st ors ke force).1 := by
  unfold terminate
  rcases e0 : aliveStep st (ors 0) with ⟨st1, r0⟩
  have h1 : statusInv st1 := by
    have hp := isalive_inv st (ors 0) h
    have ef : (isalive st (ors 0)).1 = st1 := congrArg Prod.fst e0
    rwa [ef] at hp
  cases r0 with
  | error e => exact h1
  | ok b =>
    cases b with
    | false => exact h1
    | true =>
      try dsimp only
      rcases el : termLoop ors ke st1 1 0
          ([SIGHUP, SIGCONT, SIGINT] ++ if force then [SIGKILL] else []) with
        ⟨st2, res, sent, i2⟩
      have h2 : statusInv st2 := by
        have hp := termLoop_inv ors ke
          ([SIGHUP, SIGCONT, SIGINT] ++ if force then [SIGKILL] else [])
          st1 1 0 h1
        rwa [el] at hp
      cases res with
      | ret b2 => exact h2
      | raised e =>
        cases e with
        | osError e1 =>
          try dsimp only
          rcases e2 : aliveStep st2 (ors i2) with ⟨st3, r3⟩
          have h3 : statusInv st3 := by
            have hp := isalive_inv st2 (ors i2) h2
            have ef : (isalive st2 (ors i2)).1 = st3 := congrArg Prod.fst e2
            rwa [ef] at hp
          cases r3 with
          | error e3 => exact h3
          | ok b3 => exact h3
        | eofError => exact h2
        | ptyProcessError => exact h2
        | typeError => exact h2
        | fileNotFoundError => exact h2
        | indexError => exact h2

/-- close preserves the exit-information invariant. -/
theorem close_inv (st : PtyState) (o : Nat → WaitRes)
    (ors : Nat → Nat → WaitRes) (ke : Nat → Option Nat) (force : Bool)
    (h : statusInv st) : statusInv (close st o ors ke force).1 := by
  unfold close
  split
  · exact h
  · try dsimp only
    rcases e1 : aliveStep { st with fileobjClosed := true } o with ⟨st2, r1⟩
    have h1 : statusInv st2 := by
      have hp := isalive_inv { st with fileobjClosed := true } o h
      have ef : (isalive { st with fileobjClosed := true } o).1 = st2 :=
        congrArg Prod.fst e1
      rwa [ef] at hp
    cases r1 with
    | error e => exact h1
    | ok b =>
      cases b with
      | false => exact h1
      | true =>
        try dsimp only
        rcases e2 : terminate st2 ors ke force with ⟨st3, r3, sent⟩
        have h2 : statusInv st3 := by
          have hp := terminate_inv st2 ors ke force h1
          rwa [e2] at hp
        cases r3 with
        | error e => exact h2
        | ok b3 =>
          try dsimp only
          split
          · exact h2
          · exact h2

/-- read preserves the exit-information invariant. -/
theorem read_inv (st : PtyState) (size : Nat) (r : ReadRes)
    (h : statusInv st) : statusInv (read st size r).1 := by
  have hp := read_own_pres st size r
  intro ht
  rw [hp.2.2.2.1] at ht
  rw [hp.2.2.2.2.1, hp.2.2.2.2.2]
  exact h ht

/-- readline preserves the exit-information invariant. -/
theorem readline_inv (st : PtyState) (r : ReadRes) (h : statusInv st) :
    statusInv (readline st r).1 := by
  have hp := readline_own_pres st r
  intro ht
  rw [hp.2.2.2.1] at ht
  rw [hp.2.2.2.2.1, hp.2.2.2.2.2]
  exact h ht

/-- Every method invocation preserves the exit-information invariant. -/
theorem step_inv (st : PtyState) (op : Op) (h : statusInv st) :
    statusInv (step st op) := by
  cases op with
  | opRead size r => exact read_inv st size r h
  | opReadline r => exact readline_inv st r h
  | opIsalive o => exact isalive_inv st o h
  | opWait o w => exact wait_inv st o w h
  | opTerminate ors ke force => exact terminate_inv st ors ke force h
  | opClose o ors ke force => exact close_inv st o ors ke force h

/-- Every sequence of method invocations preserves the exit-information
invariant. -/
theorem run_inv : ∀ ops (st : PtyState), statusInv st →
    statusInv (run st ops) := by
  intro ops
  induction ops with
  | nil => exact fun st h => h
  | cons op rest ih => exact fun st h => ih (step st op) (step_inv st op h)

/-- Claim C3: starting from a freshly constructed handle, after any
sequence of method invocations, whenever terminated is true exactly one of
exitstatus and signalstatus is non-null; moreover the classification block
sets exitstatus (and clears signalstatus) exactly on a normal-exit status,
and sets signalstatus (and clears exitstatus) exactly on a
signal-terminated status. -/
theorem status_exclusive :
    (∀ pid fd ops, statusInv (run (initState pid fd) ops)) ∧
    (∀ st u, WIFEXITED u = true →
      (isaliveClassify st u).1.terminated = true ∧
      (isaliveClassify st u).1.exitstatus = some (WEXITSTATUS u) ∧
      (isaliveClassify st u).1.signalstatus = none) ∧
    (∀ st u, WIFSIGNALED u = true →
      (isaliveClassify st u).1.terminated = true ∧
      (isaliveClassify st u).1.exitstatus = none ∧
      (isaliveClassify st u).1.signalstatus = some (WTERMSIG u)) := by
  refine ⟨?_, ?_, ?_⟩
  · intro pid fd ops
    refine run_inv ops (initState pid fd) ?_
    intro ht
    simp [initState] at ht
  · intro st u h
    simp [isaliveClassify, h]
  · intro st u h
    have he := signaled_not_exited u h
    simp [isaliveClassify, he, h]

/-- Witness for status_exclusive: one isalive invocation that reaps a
normally exited child yields a state with terminated true, exitstatus set
and signalstatus null; status 0 is a normal exit and status 9 a
signal-terminated one. -/
theorem status_exclusive_witness :
    statusInv (run (initState 42 3) [Op.opIsalive exitedO]) ∧
    ((isaliveClassify (initState 42 3) 0).1.terminated = true ∧
     (isaliveClassify (initState 42 3) 0).1.exitstatus =
       some (WEXITSTATUS 0) ∧
     (isaliveClassify (initState 42 3) 0).1.signalstatus = none) ∧
    ((isaliveClassify (initState 42 3) 9).1.terminated = true ∧
     (isaliveClassify (initState 42 3) 9).1.exitstatus = none ∧
     (isaliveClassify (initState 42 3) 9).1.signalstatus =
       some (WTERMSIG 9)) :=
  ⟨status_exclusive.1 42 3 [Op.opIsalive exitedO],
   status_exclusive.2.1 (initState 42 3) 0 (by decide),
   status_exclusive.2.2 (initState 42 3) 9 (by decide)⟩

/-- The signals the escalation loop passes to os.kill form an in-order
subsequence of the signal list it was handed. -/
theorem termLoop_sent_sublist (ors : Nat → Nat → WaitRes)
    (ke : Nat → Option Nat) :
    ∀ sigs st i k, List.Sublist (termLoop ors ke st i k sigs).2.2.1 sigs := by
  intro sigs
  induction sigs with
  | nil => intro st i k; exact List.nil_sublist _
  | cons sig rest ih =>
    intro st i k
    simp only [termLoop]
    rcases e1 : aliveStep st (ors i) with ⟨st1, r1⟩
    cases r1 with
    | error e => exact List.nil_sublist _
    | ok aliveNow =>
      try dsimp only
      split
      · cases hke : ke k with
        | some e2 => exact List.Sublist.cons₂ sig (List.nil_sublist rest)
        | none =>
          try dsimp only
          rcases e2 : aliveStep st1 (ors (i + 1)) with ⟨st2, r2⟩
          cases r2 with
          | error e => exact List.Sublist.cons₂ sig (List.nil_sublist rest)
          | ok stillAlive =>
            try dsimp only
            split
            · rcases e3 : termLoop ors ke st2 (i + 2) (k + 1) rest with
                ⟨st3, res, sent, i3⟩
              have h3 := ih st2 (i + 2) (k + 1)
              rw [e3] at h3
              exact List.Sublist.cons₂ sig h3
            · exact List.Sublist.cons₂ sig (List.nil_sublist rest)
      · try dsimp only
        rcases e2 : aliveStep st1 (ors (i + 1)) with ⟨st2, r2⟩
        cases r2 with
        | error e => exact List.nil_sublist _
        | ok stillAlive =>
          try dsimp only
          split
          · exact List.Sublist.cons sig (ih st2 (i + 2) k)
          · exact List.nil_sublist _

/-- Claim C5: terminate attempts its signals in the escalating order
SIGHUP, SIGCONT, SIGINT and, only when force is true, SIGKILL (the sent
trace is always an in-order subsequence of that list); with a liveness
check after each step, it short-circuits with true as soon as the process
dies at any stage (sending exactly the signals up to that stage); against a
process that stays alive throughout it returns false after the full
sequence, and with force true against a process that ignores hang-up,
continue and interrupt it reports success once the kill signal is applied;
an OS error raised by a signal send aborts the escalation and one further
liveness check alone decides the reported result. -/
theorem terminate_spec :
    (∀ st ors ke force, List.Sublist (terminate st ors ke force).2.2
      ([SIGHUP, SIGCONT, SIGINT] ++ if force then [SIGKILL] else [])) ∧
    (∀ k, k ≤ 4 →
      (terminate (initState 42 3) (diesAt (2 * k)) (fun _ => none) true).2 =
        (.ok true, List.take k [SIGHUP, SIGCONT, SIGINT, SIGKILL])) ∧
    (∀ force,
      (terminate (initState 42 3) alwaysAlive (fun _ => none) force).2 =
        (.ok false,
         [SIGHUP, SIGCONT, SIGINT] ++ if force then [SIGKILL] else [])) ∧
    ((terminate (initState 42 3) alwaysAlive killErrFirst true).2 =
       (.ok false, [SIGHUP]) ∧
     (terminate (initState 42 3) (diesAt 2) killErrFirst true).2 =
       (.ok true, [SIGHUP])) := by
  refine ⟨?_, ?_, ?_, rfl, rfl⟩
  · intro st ors ke force
    unfold terminate
    rcases e0 : aliveStep st (ors 0) with ⟨st1, r0⟩
    cases r0 with
    | error e => exact List.nil_sublist _
    | ok b =>
      cases b with
      | false => exact List.nil_sublist _
      | true =>
        try dsimp only
        rcases el : termLoop ors ke st1 1 0
            ([SIGHUP, SIGCONT, SIGINT] ++ if force then [SIGKILL] else [])
          with ⟨st2, res, sent, i2⟩
        have hl := termLoop_sent_sublist ors ke
          ([SIGHUP, SIGCONT, SIGINT] ++ if force then [SIGKILL] else [])
          st1 1 0
        rw [el] at hl
        cases res with
        | ret b2 => exact hl
        | raised e =>
          cases e with
          | osError e1 =>
            try dsimp only
            rcases e2 : aliveStep st2 (ors i2) with ⟨st3, r3⟩
            cases r3 with
            | error e3 => exact hl
            | ok b3 => exact hl
          | eofError => exact hl
          | ptyProcessError => exact hl
          | typeError => exact hl
          | fileNotFoundError => exact hl
          | indexError => exact hl
  · intro k hk
    interval_cases k
    · rfl
    · rfl
    · rfl
    · rfl
    · rfl
  · intro force
    cases force
    · rfl
    · rfl

/-- Witness for terminate_spec: with force set against a process that stays
alive until the kill signal is applied, terminate reports success having
sent exactly hang-up, continue, interrupt and kill in order. -/
theorem terminate_spec_witness :
    (terminate (initState 42 3) (diesAt (2 * 4)) (fun _ => none) true).2 =
      (.ok true, List.take 4 [SIGHUP, SIGCONT, SIGINT, SIGKILL]) :=
  terminate_spec.2.1 4 (by decide)

/-- After close, the file object is closed unless the handle was already
marked closed (in which case nothing happened). -/
theorem close_fileobjClosedEq (st : PtyState) (o : Nat → WaitRes)
    (ors : Nat → Nat → WaitRes) (ke : Nat → Option Nat) (force : Bool) :
    (close st o ors ke force).1.fileobjClosed =
      if st.closed then st.fileobjClosed else true := by
  unfold close
  split
  · rfl
  · try dsimp only
    rcases e1 : aliveStep { st with fileobjClosed := true } o with ⟨st2, r1⟩
    have h1 : st2.fileobjClosed = true := by
      have hp := aliveStep_pres { st with fileobjClosed := true } o
      rw [e1] at hp
      exact hp.2.2.1
    cases r1 with
    | error e => exact h1
    | ok b =>
      cases b with
      | false => exact h1
      | true =>
        try dsimp only
        rcases e2 : terminate st2 ors ke force with ⟨st3, r3, sent⟩
        have h2 : st3.fileobjClosed = true := by
          have hp := terminate_pres st2 ors ke force
          rw [e2] at hp
          exact hp.2.2.1.trans h1
        cases r3 with
        | error e => exact h2
        | ok b3 =>
          try dsimp only
          split
          · exact h2
          · exact h2

/-- close actually closes the descriptor exactly when the handle was not
yet marked closed and the file object was still open. -/
theorem close_count (st : PtyState) (o : Nat → WaitRes)
    (ors : Nat → Nat → WaitRes) (ke : Nat → Option Nat) (force : Bool) :
    (close st o ors ke force).2.2 =
      if st.closed then 0 else if st.fileobjClosed then 0 else 1 := by
  unfold close
  split
  · rfl
  · try dsimp only
    rcases e1 : aliveStep { st with fileobjClosed := true } o with ⟨st2, r1⟩
    cases r1 with
    | error e => rfl
    | ok b =>
      cases b with
      | false => rfl
      | true =>
        try dsimp only
        rcases e2 : terminate st2 ors ke force with ⟨st3, r3, sent⟩
        cases r3 with
        | error e => rfl
        | ok b3 =>
          try dsimp only
          split
          · rfl
          · rfl

/-- One method invocation spends at most the remaining descriptor-close
budget: the count it performs plus the budget left afterwards never exceeds
the budget before. -/
theorem stepCount_bound (st : PtyState) (op : Op) :
    (stepCount st op).2 + gaugeFd (stepCount st op).1 ≤ gaugeFd st := by
  cases op with
  | opRead size r =>
    simp [stepCount, step, gaugeFd, (read_own_pres st size r).2.1]
  | opReadline r =>
    simp [stepCount, step, gaugeFd, (readline_own_pres st r).2.1]
  | opIsalive o =>
    simp [stepCount, step, gaugeFd, (aliveStep_pres st o).2.2.1]
  | opWait o w =>
    simp [stepCount, step, gaugeFd, (wait_pres st o w).2.2.1]
  | opTerminate ors ke force =>
    simp [stepCount, step, gaugeFd, (terminate_pres st ors ke force).2.2.1]
  | opClose o ors ke force =>
    have hc := close_count st o ors ke force
    have hf := close_fileobjClosedEq st o ors ke force
    simp only [stepCount]
    rw [hc]
    unfold gaugeFd
    rw [hf]
    by_cases h1 : st.closed = true
    · simp [h1]
    · by_cases h2 : st.fileobjClosed = true
      · simp [h1, h2]
      · simp [h1, h2]

/-- Any sequence of method invocations spends at most the remaining
descriptor-close budget. -/
theorem runCount_le : ∀ ops (st : PtyState),
    (runCount st ops).2 + gaugeFd (runCount st ops).1 ≤ gaugeFd st := by
  intro ops
  induction ops with
  | nil => intro st; simp [runCount, gaugeFd]
  | cons op rest ih =>
    intro st
    have h1 := stepCount_bound st op
    have h2 := ih (stepCount st op).1
    simp only [runCount]
    try dsimp only
    omega

/-- Claim C6: close is idempotent: a call on a handle already marked closed
returns immediately, changes no state and closes no descriptor; a first
call that completes normally leaves the closed flag true and the descriptor
field invalidated to -1; and over any sequence of method invocations on a
freshly constructed handle the underlying descriptor is closed at most
once. -/
theorem close_idempotent :
    (∀ st o ors ke force, st.closed = true →
      close st o ors ke force = (st, .ok (), 0)) ∧
    (∀ st o ors ke force, st.closed = false →
      (close st o ors ke force).2.1 = .ok () →
      (close st o ors ke force).1.closed = true ∧
      (close st o ors ke force).1.fd = -1) ∧
    (∀ pid fd ops, (runCount (initState pid fd) ops).2 ≤ 1) := by
  refine ⟨?_, ?_, ?_⟩
  · intro st o ors ke force h
    simp [close, h]
  · intro st o ors ke force h1 h2
    unfold close at h2 ⊢
    rw [if_neg (by simp [h1])] at h2 ⊢
    try dsimp only at h2 ⊢
    rcases e1 : aliveStep { st with fileobjClosed := true } o with ⟨st2, r1⟩
    rw [e1] at h2
    cases r1 with
    | error e => simp at h2
    | ok b =>
      cases b with
      | false => exact ⟨rfl, rfl⟩
      | true =>
        try dsimp only at h2 ⊢
        rcases e2 : terminate st2 ors ke force with ⟨st3, r3, sent⟩
        rw [e2] at h2
        cases r3 with
        | error e => simp at h2
        | ok b3 =>
          cases b3 with
          | false => simp at h2
          | true => exact ⟨rfl, rfl⟩
  · intro pid fd ops
    have h := runCount_le ops (initState pid fd)
    have hg : gaugeFd (initState pid fd) = 1 := rfl
    omega

/-- Witness for close_idempotent: a second close on an already-closed
handle is a no-op with zero descriptor closes, and a completing first close
(child already exited) marks the handle closed with descriptor -1. -/
theorem close_idempotent_witness :
    close { initState 42 3 with closed := true } exitedO alwaysAlive
        (fun _ => none) true =
      ({ initState 42 3 with closed := true }, .ok (), 0) ∧
    ((close (initState 42 3) exitedO alwaysAlive
        (fun _ => none) true).1.closed = true ∧
     (close (initState 42 3) exitedO alwaysAlive
        (fun _ => none) true).1.fd = -1) :=
  ⟨close_idempotent.1 { initState 42 3 with closed := true } exitedO
     alwaysAlive (fun _ => none) true rfl,
   close_idempotent.2.1 (initState 42 3) exitedO alwaysAlive
     (fun _ => none) true rfl rfl⟩

end Ptyprocess
